import Mathlib

/-!
Verification of the vballheatmap client-side core against its specification.

The development shallowly embeds the TypeScript source:

* src/src/utils/imageUtils.ts          — file validation, compression geometry
* src/src/services/geminiApi.ts        — HTTP status classification of the remote call
* src/src/components/AnnotationCanvas.tsx — the marker toggle on canvas clicks
* the analysis hook (useImageAnalysis) — pipeline orchestration, progress/result state

Browser values are modelled explicitly: a file is its metadata record, canvas
coordinates are rationals, every asynchronous outcome (compression, base64
encoding, the remote call) is an oracle supplied in an environment record, and
Math.random and Date.now are environment fields as well. Object URLs are
strings; a ledger records every revoke call so that resource release is
observable.
-/

namespace VB

/-! ## Data model (src/src/types/index.ts) -/

/-- A candidate file as the pipeline observes it: declared MIME type, byte
size and name (the File object of the browser). -/
structure FileMeta where
  name : String
  type : String
  size : Nat
deriving DecidableEq, Repr

/-- The ApiError class of src/src/types/index.ts: message plus optional
code and details. -/
structure ApiErr where
  message : String
  code : Option String := none
  details : Option String := none
deriving DecidableEq, Repr

/-- The status field of UploadProgress. -/
inductive Status where
  | idle
  | uploading
  | analyzing
  | complete
  | error
deriving DecidableEq, Repr

/-- UploadProgress of src/src/types/index.ts: progress is the published
percent. -/
structure UploadProgress where
  progress : Nat
  status : Status
  message : Option String := none
deriving DecidableEq, Repr

/-- AnalysisResult of src/src/types/index.ts (timestamp as Date.now value,
confidence as an exact rational). -/
structure AnalysisResult where
  id : String
  timestamp : Nat
  imageUrl : String
  fileName : String
  analysis : String
  confidence : Rat
  tags : List String
deriving DecidableEq, Repr

/-! ## Image validator (src/src/utils/imageUtils.ts, validateImageFile) -/

/-- The accepted MIME types, in source order. -/
def validTypes : List String := ["image/jpeg", "image/png", "image/webp"]

/-- The size ceiling: 10 * 1024 * 1024 bytes. -/
def maxSize : Nat := 10 * 1024 * 1024

/-- The return shape of validateImageFile. -/
structure ValidationResult where
  isValid : Bool
  error : Option String := none
deriving DecidableEq, Repr

/-- The reason validateImageFile gives for a rejected MIME type. -/
def typeErrorMsg : String :=
  "Invalid file type. Please upload JPEG, PNG, or WebP images only."

/-- The reason validateImageFile gives for an oversize file. -/
def sizeErrorMsg : String :=
  "File size too large. Please upload images smaller than 10MB."

/-- validateImageFile: reject a type outside validTypes, then a size over
maxSize, else accept. -/
def validateImageFile (file : FileMeta) : ValidationResult :=
  if ¬ (file.type ∈ validTypes) then
    { isValid := false, error := some typeErrorMsg }
  else if file.size > maxSize then
    { isValid := false, error := some sizeErrorMsg }
  else
    { isValid := true, error := none }

/-! ## Claim C2 -/

/-- Claim C2: the validator rejects with the type reason exactly when the
declared MIME type is outside the accepted set, rejects with the size reason
exactly when the type is accepted but the size strictly exceeds 10 MiB, and
accepts in all other cases; a file of exactly 10 MiB with an accepted type is
accepted. -/
theorem validator_classification (f : FileMeta) :
    (validateImageFile f = { isValid := false, error := some typeErrorMsg } ↔
      f.type ∉ validTypes) ∧
    (validateImageFile f = { isValid := false, error := some sizeErrorMsg } ↔
      f.type ∈ validTypes ∧ f.size > 10 * 1024 * 1024) ∧
    ((validateImageFile f).isValid = true ↔
      f.type ∈ validTypes ∧ f.size ≤ 10 * 1024 * 1024) ∧
    validateImageFile { name := "f", type := "image/png", size := 10 * 1024 * 1024 } =
      { isValid := true, error := none } := by
  refine ⟨?_, ?_, ?_, by decide⟩ <;>
    (simp only [validateImageFile]
     split_ifs with h1 h2 <;>
       simp_all [ValidationResult.mk.injEq, maxSize,
         show typeErrorMsg ≠ sizeErrorMsg from by decide,
         show sizeErrorMsg ≠ typeErrorMsg from by decide])

/-! ## Compressor geometry (src/src/utils/imageUtils.ts, compressImage)

The source computes, on image load,
  ratio = Math.min(maxWidth / img.width, maxWidth / img.height)
  canvas.width = img.width * ratio; canvas.height = img.height * ratio
and re-encodes at that size.  The geometry is embedded over the rationals. -/

/-- The scale factor compressImage applies (the source names it ratio). -/
def compressScale (width height maxWidth : Rat) : Rat :=
  min (maxWidth / width) (maxWidth / height)

/-- The output dimensions (canvas.width, canvas.height) compressImage draws
at, for default maxWidth 1920. -/
def compressDims (width height : Rat) (maxWidth : Rat := 1920) : Rat × Rat :=
  (width * compressScale width height maxWidth,
   height * compressScale width height maxWidth)

/-! ## Remote error classification (src/src/services/geminiApi.ts) -/

/-- The error object of a non-ok response body, when the body parsed. -/
structure ErrorBody where
  message : Option String := none
  code : Option String := none
  details : Option String := none
deriving DecidableEq, Repr

/-- JavaScript a || b on an optional string: the empty string is falsy, so
it also falls through to the default. -/
def jsOrElse (s : Option String) (d : String) : String :=
  match s with
  | some m => if m = "" then d else m
  | none => d

/-- The status dispatch of analyzeImageWithGemini for a non-ok response:
400, 401, 403 and 429 map to fixed classified errors; any other status
carries the service-provided message/code when available, with API_ERROR as
the fallback code. -/
def handleErrorStatus (status : Nat) (errorData : ErrorBody) : ApiErr :=
  if status = 400 then
    { message := "Invalid request. Please check your image format and try again.",
      code := some "INVALID_REQUEST" }
  else if status = 401 then
    { message := "Invalid API key. Please check your Gemini API key configuration.",
      code := some "INVALID_API_KEY" }
  else if status = 403 then
    { message := "API access forbidden. Please check your API key permissions.",
      code := some "FORBIDDEN" }
  else if status = 429 then
    { message := "Rate limit exceeded. Please wait a moment and try again.",
      code := some "RATE_LIMIT" }
  else
    { message := jsOrElse errorData.message ("API request failed with status " ++ toString status),
      code := some (jsOrElse errorData.code "API_ERROR"),
      details := errorData.details }

/-! ## Annotation surface (src/src/components/AnnotationCanvas.tsx) -/

/-- The two marker kinds (the source type is the union of the string
literals success and failure). -/
inductive MarkerKind where
  | success
  | failure
deriving DecidableEq, Repr

/-- A point marker: canvas coordinates, kind, id. -/
structure Point where
  x : Rat
  y : Rat
  type : MarkerKind
  id : String
deriving DecidableEq, Repr

/-- The hit test of handleCanvasClick.  The source compares
Math.sqrt((point.x - x) ** 2 + (point.y - y) ** 2) <= 15; both sides are
nonnegative, so squaring gives the equivalent rational test used here. -/
def withinHit (p : Point) (x y : Rat) : Bool :=
  decide ((p.x - x) * (p.x - x) + (p.y - y) * (p.y - y) ≤ 15 * 15)

/-- handleCanvasClick: findIndex over the markers with the hit test; a hit
removes exactly the marker at that index (the source filters on
index !== clickedPointIndex); otherwise a marker of the current tool kind is
appended at the click point with a fresh id. -/
def handleCanvasClick (points : List Point) (currentTool : MarkerKind) (x y : Rat)
    (newId : String) : List Point :=
  match points.findIdx? (fun p => withinHit p x y) with
  | some clickedIdx =>
      (points.enum.filter (fun ip => ip.1 != clickedIdx)).map Prod.snd
  | none => points ++ [{ x := x, y := y, type := currentTool, id := newId }]

/-! ### List helpers for the click theorem -/

/-- Filtering an indexed list on all indices other than k + i and dropping
the indices removes exactly the element at position i. -/
theorem filter_enumFrom_ne_eq_eraseIdx {α : Type} (l : List α) (k i : Nat) :
    ((l.enumFrom k).filter (fun ip => ip.1 != k + i)).map Prod.snd = l.eraseIdx i := by
  induction l generalizing k i with
  | nil => simp
  | cons a t ih =>
    cases i with
    | zero =>
      have hall : ∀ x ∈ t.enumFrom (k + 1), (x.1 != k) = true := by
        intro q hq
        have := List.le_fst_of_mem_enumFrom hq
        simp only [bne_iff_ne, ne_eq, decide_eq_true_eq]
        omega
      rw [List.enumFrom_cons, List.eraseIdx_cons_zero]
      simp only [Nat.add_zero, List.filter_cons, bne_self_eq_false, Bool.false_eq_true,
        if_false]
      rw [List.filter_eq_self.mpr hall, List.enumFrom_map_snd]
    | succ j =>
      have hk : k + (j + 1) = (k + 1) + j := by omega
      have hhead : (k != (k + 1) + j) = true := by
        simp only [bne_iff_ne, ne_eq, decide_eq_true_eq]
        omega
      rw [List.enumFrom_cons, List.eraseIdx_cons_succ, hk, List.filter_cons]
      simp only [hhead, if_true, List.map_cons, ih (k + 1) j]

/-- What a successful findIdx? means: the element at the returned index
satisfies the test and every earlier element fails it. -/
theorem findIdx?_some_spec {α : Type} (pred : α → Bool) (l : List α) (i : Nat)
    (h : l.findIdx? pred = some i) :
    ∃ p, l[i]? = some p ∧ pred p = true ∧
      ∀ j, j < i → ∀ q, l[j]? = some q → pred q = false := by
  induction l generalizing i with
  | nil => simp [List.findIdx?_nil] at h
  | cons a t ih =>
    rw [List.findIdx?_cons] at h
    by_cases hp : pred a
    · rw [if_pos hp] at h
      obtain rfl : (0 : Nat) = i := by simpa using h
      exact ⟨a, by simp, hp, fun j hj => absurd hj (by omega)⟩
    · rw [if_neg hp, List.findIdx?_succ] at h
      obtain ⟨v, hv, rfl⟩ : ∃ v, t.findIdx? pred = some v ∧ i = v + 1 := by
        cases ht : t.findIdx? pred with
        | none => rw [ht] at h; simp at h
        | some v => rw [ht] at h; simp at h; exact ⟨v, rfl, h.symm⟩
      obtain ⟨p, hp1, hp2, hp3⟩ := ih v hv
      refine ⟨p, by simpa using hp1, hp2, ?_⟩
      intro j hj q hq
      cases j with
      | zero =>
        obtain rfl : a = q := by simpa using hq
        simpa using hp
      | succ j =>
        exact hp3 j (by omega) q (by simpa using hq)

/-! ## Claim C1 -/

/-- Claim C1: if some existing marker lies within Euclidean distance 15 of a
click, the click removes exactly the first such marker in insertion order and
adds none; otherwise it appends one marker of the selected kind at the click
point.  In particular a click at (100,100) on an empty set adds one marker
and a second click at (101,101) removes it again. -/
theorem click_toggle_spec (points : List Point) (tool : MarkerKind) (x y : Rat)
    (nid : String) :
    ((∃ p ∈ points, withinHit p x y = true) →
      ∃ i, points.findIdx? (fun p => withinHit p x y) = some i ∧
        handleCanvasClick points tool x y nid = points.eraseIdx i ∧
        (handleCanvasClick points tool x y nid).length + 1 = points.length ∧
        (∃ p, points[i]? = some p ∧ withinHit p x y = true) ∧
        (∀ j, j < i → ∀ q, points[j]? = some q → withinHit q x y = false)) ∧
    ((∀ p ∈ points, withinHit p x y = false) →
      handleCanvasClick points tool x y nid =
        points ++ [{ x := x, y := y, type := tool, id := nid }]) ∧
    handleCanvasClick [] MarkerKind.success 100 100 "t1" =
      [{ x := 100, y := 100, type := MarkerKind.success, id := "t1" }] ∧
    handleCanvasClick [{ x := 100, y := 100, type := MarkerKind.success, id := "t1" }]
      MarkerKind.success 101 101 "t2" = [] := by
  refine ⟨?_, ?_, rfl, ?_⟩
  · rintro ⟨p, hp, hhit⟩
    cases hfind : points.findIdx? (fun p => withinHit p x y) with
    | none =>
      have := List.findIdx?_eq_none_iff.mp hfind p hp
      simp [hhit] at this
    | some i =>
      obtain ⟨q, hq1, hq2, hq3⟩ := findIdx?_some_spec _ _ _ hfind
      have hres : handleCanvasClick points tool x y nid = points.eraseIdx i := by
        unfold handleCanvasClick
        rw [hfind]
        have := filter_enumFrom_ne_eq_eraseIdx points 0 i
        simpa [List.enum_eq_enumFrom] using this
      have hlen : i < points.length := by
        by_contra hge
        rw [List.getElem?_eq_none (by omega)] at hq1
        exact Option.noConfusion hq1
      refine ⟨i, rfl, hres, ?_, ⟨q, hq1, hq2⟩, hq3⟩
      rw [hres, List.length_eraseIdx_of_lt hlen]
      omega
  · intro hall
    unfold handleCanvasClick
    rw [List.findIdx?_eq_none_iff.mpr hall]
  · have h : withinHit { x := 100, y := 100, type := MarkerKind.success, id := "t1" }
        101 101 = true := by
      simp only [withinHit, decide_eq_true_eq]
      norm_num
    simp [handleCanvasClick, List.findIdx?_cons, h, List.enum, List.enumFrom]

/-! ## Claim C6 -/

/-- Counterexample to claim C6: a 100 by 50 image is already within the
default maxWidth of 1920, yet compressImage does not leave it unchanged: the
unclamped scale factor min(1920/100, 1920/50) = 19.2 blows it up to
1920 by 960. -/
theorem compress_upscales_small_image :
    compressDims 100 50 1920 = ((1920 : Rat), (960 : Rat)) ∧
    ¬ compressDims 100 50 1920 = ((100 : Rat), (50 : Rat)) := by
  have h : compressDims 100 50 1920 = ((1920 : Rat), (960 : Rat)) := by
    simp only [compressDims, compressScale, Prod.mk.injEq]
    constructor <;> norm_num [min_def]
  refine ⟨h, ?_⟩
  rw [h]
  simp only [Prod.mk.injEq, not_and]
  intro h1
  norm_num at h1

/-- Claim C6 amended: both output dimensions are scaled by the single factor
min(maxWidth/w, maxWidth/h), so width and height are bounded by maxWidth,
the aspect ratio is preserved exactly, and the longest edge lands exactly on
maxWidth.  An image already within maxWidth is NOT left unchanged: the factor
is then at least 1, so the image is scaled up. -/
theorem compress_geometry (w h mw : Rat) (hw : 0 < w) (hh : 0 < h) (hmw : 0 < mw) :
    (compressDims w h mw).1 ≤ mw ∧
    (compressDims w h mw).2 ≤ mw ∧
    (compressDims w h mw).1 * h = (compressDims w h mw).2 * w ∧
    (h ≤ w → (compressDims w h mw).1 = mw) ∧
    (w ≤ h → (compressDims w h mw).2 = mw) ∧
    (1 ≤ compressScale w h mw ↔ w ≤ mw ∧ h ≤ mw) ∧
    (w ≤ mw → h ≤ mw → w ≤ (compressDims w h mw).1) := by
  have hscale : 1 ≤ compressScale w h mw ↔ w ≤ mw ∧ h ≤ mw := by
    rw [compressScale, le_min_iff, one_le_div hw, one_le_div hh]
  refine ⟨?_, ?_, ?_, ?_, ?_, hscale, ?_⟩
  · calc w * compressScale w h mw ≤ w * (mw / w) :=
          mul_le_mul_of_nonneg_left (min_le_left _ _) hw.le
      _ = mw := by field_simp
  · calc h * compressScale w h mw ≤ h * (mw / h) :=
          mul_le_mul_of_nonneg_left (min_le_right _ _) hh.le
      _ = mw := by field_simp
  · show w * compressScale w h mw * h = h * compressScale w h mw * w
    ring
  · intro hle
    have : compressScale w h mw = mw / w :=
      min_eq_left ((div_le_div_iff_of_pos_left hmw hw hh).mpr hle)
    rw [show (compressDims w h mw).1 = w * compressScale w h mw from rfl, this]
    field_simp
  · intro hle
    have : compressScale w h mw = mw / h :=
      min_eq_right ((div_le_div_iff_of_pos_left hmw hh hw).mpr hle)
    rw [show (compressDims w h mw).2 = h * compressScale w h mw from rfl, this]
    field_simp
  · intro h1 h2
    exact le_mul_of_one_le_right hw.le (hscale.mpr ⟨h1, h2⟩)

/-- Witness for the amended compression geometry at the concrete input
w = 100, h = 50, maxWidth = 1920. -/
theorem compress_geometry_witness :
    (compressDims 100 50 1920).1 ≤ 1920 ∧ (compressDims 100 50 1920).2 ≤ 1920 :=
  ⟨(compress_geometry 100 50 1920 (by norm_num) (by norm_num) (by norm_num)).1,
   (compress_geometry 100 50 1920 (by norm_num) (by norm_num) (by norm_num)).2.1⟩

/-! ## Claim C4 -/

/-- Claim C4: the remote-call error classification.  Status 400, 401, 403 and
429 map to the fixed classified errors INVALID_REQUEST, INVALID_API_KEY,
FORBIDDEN and RATE_LIMIT; every other status carries the service-provided
message and code when present, with API_ERROR as the fallback code; and the
five classes are pairwise distinct. -/
theorem status_to_error_class (b : ErrorBody) (s : Nat) :
    handleErrorStatus 400 b =
      { message := "Invalid request. Please check your image format and try again.",
        code := some "INVALID_REQUEST", details := none } ∧
    handleErrorStatus 401 b =
      { message := "Invalid API key. Please check your Gemini API key configuration.",
        code := some "INVALID_API_KEY", details := none } ∧
    handleErrorStatus 403 b =
      { message := "API access forbidden. Please check your API key permissions.",
        code := some "FORBIDDEN", details := none } ∧
    handleErrorStatus 429 b =
      { message := "Rate limit exceeded. Please wait a moment and try again.",
        code := some "RATE_LIMIT", details := none } ∧
    (s ∉ ([400, 401, 403, 429] : List Nat) →
      handleErrorStatus s b =
        { message := jsOrElse b.message ("API request failed with status " ++ toString s),
          code := some (jsOrElse b.code "API_ERROR"),
          details := b.details }) ∧
    ([(handleErrorStatus 400 { }).code, (handleErrorStatus 401 { }).code,
      (handleErrorStatus 403 { }).code, (handleErrorStatus 429 { }).code,
      (handleErrorStatus 500 { }).code]).Nodup := by
  refine ⟨rfl, rfl, rfl, rfl, ?_, by decide⟩
  intro hs
  have h1 : ¬ s = 400 := fun h => hs (by simp [h])
  have h2 : ¬ s = 401 := fun h => hs (by simp [h])
  have h3 : ¬ s = 403 := fun h => hs (by simp [h])
  have h4 : ¬ s = 429 := fun h => hs (by simp [h])
  simp [handleErrorStatus, h1, h2, h3, h4]

/-! ## Tag extraction (the analysis hook, extractTags) -/

/-- Containment of a character sequence in another, scanning left to right:
the embedding of JavaScript String.prototype.includes. -/
def containsSeq (needle : List Char) : List Char → Bool
  | [] => needle.isEmpty
  | c :: rest => needle.isPrefixOf (c :: rest) || containsSeq needle rest

/-- The fixed vocabulary extractTags scans for, in source order. -/
def commonTags : List String :=
  ["portrait", "landscape", "nature", "urban", "indoor", "outdoor",
   "people", "animals", "architecture", "food", "technology", "art",
   "colorful", "monochrome", "bright", "dark", "vintage", "modern"]

/-- extractTags: lowercase the analysis text, keep the common tags it
contains, cap at five.  Lowercasing is done per character. -/
def extractTags (analysis : String) : List String :=
  let lowerAnalysis := analysis.data.map Char.toLower
  (commonTags.filter (fun tag => containsSeq tag.data lowerAnalysis)).take 5

/-! ## Analysis orchestrator (the useImageAnalysis hook, analyzeImage)

The hook is embedded as a pure function from an environment of oracled
asynchronous outcomes to a run record.  The environment fixes the outcome of
each suspension point: what compressImage resolves to when invoked, what
convertToBase64 resolves to on the file it is handed, and what
analyzeImageWithGemini resolves to; Math.random, Date.now and
URL.createObjectURL are environment values as well.  The run record carries
every setProgress value in publication order (the trace), the final result
list, the error state, the return value, and the reset that the success path
schedules with setTimeout. -/

/-- How the remote call fails, when it fails: with an ApiError instance
(rethrown as is) or with any other exception (wrapped in a generic
message). -/
inductive ApiFailure where
  | api (e : ApiErr)
  | other

/-- The oracled environment of one analyzeImage call. -/
structure Env where
  file : FileMeta
  compressResult : Except String FileMeta
  encodeResult : FileMeta → Except String String
  apiResult : Except ApiFailure String
  rand : Rat
  now : Nat
  objectUrl : String

/-- Everything one analyzeImage run produces or mutates. -/
structure RunOutput where
  result : Option AnalysisResult
  results : List AnalysisResult
  error : Option String
  trace : List UploadProgress
  scheduledReset : Option (Nat × UploadProgress)
  compressionInvoked : Bool
  encodedFile : Option FileMeta

/-- The analyzeImage run over the oracled environment, starting from the
result list results0.  Mirrors the source phase by phase: validate (fatal),
compress when the file exceeds 2 MiB (failure falls back to the original
file), encode (fatal), remote call (fatal, message from the ApiError when it
is one), then result assembly, prepend, completion, and the 2000 ms reset to
idle.  Every catch publishes progress 0 with status error and the message. -/
def analyzeImage (env : Env) (results0 : List AnalysisResult) : RunOutput :=
  let t0 : List UploadProgress :=
    [{ progress := 0, status := .uploading, message := some "Validating file..." }]
  let validation := validateImageFile env.file
  if validation.isValid = false then
    let msg := jsOrElse validation.error "Invalid file"
    { result := none, results := results0, error := some msg,
      trace := t0 ++ [{ progress := 0, status := .error, message := some msg }],
      scheduledReset := none, compressionInvoked := false, encodedFile := none }
  else
    let t1 := t0 ++ [{ progress := 20, status := .uploading, message := some "Compressing image..." }]
    let invoked := decide (env.file.size > 2 * 1024 * 1024)
    let compressedFile :=
      if env.file.size > 2 * 1024 * 1024 then
        match env.compressResult with
        | .ok f => f
        | .error _ => env.file
      else env.file
    let t2 := t1 ++ [{ progress := 40, status := .uploading, message := some "Converting to base64..." }]
    match env.encodeResult compressedFile with
    | .error _ =>
      let msg := "Failed to process image. Please try with a different image."
      { result := none, results := results0, error := some msg,
        trace := t2 ++ [{ progress := 0, status := .error, message := some msg }],
        scheduledReset := none, compressionInvoked := invoked,
        encodedFile := some compressedFile }
    | .ok _b64 =>
      let t3 := t2 ++ [{ progress := 60, status := .analyzing, message := some "Analyzing with Gemini AI..." }]
      match env.apiResult with
      | .error f =>
        let msg :=
          match f with
          | .api e => e.message
          | .other => "Failed to analyze image with AI. Please try again."
        { result := none, results := results0, error := some msg,
          trace := t3 ++ [{ progress := 0, status := .error, message := some msg }],
          scheduledReset := none, compressionInvoked := invoked,
          encodedFile := some compressedFile }
      | .ok analysis =>
        let t4 := t3 ++ [{ progress := 90, status := .analyzing, message := some "Processing results..." }]
        let result : AnalysisResult :=
          { id := toString env.now, timestamp := env.now, imageUrl := env.objectUrl,
            fileName := env.file.name, analysis := analysis,
            confidence := env.rand * 0.2 + 0.8, tags := extractTags analysis }
        { result := some result, results := result :: results0, error := none,
          trace := t4 ++ [{ progress := 100, status := .complete, message := some "Analysis complete!" }],
          scheduledReset := some (2000, { progress := 0, status := .idle, message := none }),
          compressionInvoked := invoked, encodedFile := some compressedFile }

/-! ## Result store (the useImageAnalysis hook, clearResults / removeResult)

The store pairs the result list with a ledger of every URL.revokeObjectURL
call made so far, so that resource release is observable.  The source bodies
of clearResults and removeResult only replace the list — neither makes a
revoke call, so neither touches the ledger. -/

/-- The result list plus the ledger of revoked object URLs. -/
structure Store where
  results : List AnalysisResult
  revokedUrls : List String
deriving DecidableEq, Repr

/-- clearResults: setResults([]) and setError(null); no revoke call. -/
def clearResults (st : Store) : Store :=
  { st with results := [] }

/-- removeResult: filter the list on result.id !== id; no revoke call. -/
def removeResult (st : Store) (id : String) : Store :=
  { st with results := st.results.filter (fun r => r.id != id) }

/-! ## Concrete environments used as witnesses and counterexamples -/

/-- A small valid PNG file. -/
def smallPng : FileMeta := { name := "court.png", type := "image/png", size := 500 }

/-- A valid JPEG over the 2 MiB compression threshold. -/
def bigJpeg : FileMeta := { name := "big.jpg", type := "image/jpeg", size := 3 * 1024 * 1024 }

/-- A run whose remote call fails with the classified 429 error. -/
def env429 : Env :=
  { file := smallPng, compressResult := .ok smallPng,
    encodeResult := fun _ => .ok "b64",
    apiResult := .error (.api (handleErrorStatus 429 { })),
    rand := 1/2, now := 7, objectUrl := "blob:u1" }

/-- A run over a big file whose compression step fails. -/
def envCompressFail : Env :=
  { file := bigJpeg, compressResult := .error "Failed to load image for compression",
    encodeResult := fun _ => .ok "b64", apiResult := .ok "ok",
    rand := 1/2, now := 7, objectUrl := "blob:u2" }

/-- A run whose base64 conversion fails. -/
def envEncodeFail : Env :=
  { file := smallPng, compressResult := .ok smallPng,
    encodeResult := fun _ => .error "FileReader result is not a string",
    apiResult := .ok "ok", rand := 1/2, now := 7, objectUrl := "blob:u3" }

/-- A fully successful run. -/
def envOk : Env :=
  { file := smallPng, compressResult := .ok smallPng,
    encodeResult := fun _ => .ok "b64", apiResult := .ok "Good spread",
    rand := 1/2, now := 7, objectUrl := "blob:u4" }

/-- The result the successful run envOk assembles. -/
def resOk : AnalysisResult :=
  { id := toString envOk.now, timestamp := envOk.now, imageUrl := envOk.objectUrl,
    fileName := envOk.file.name, analysis := "Good spread",
    confidence := envOk.rand * 0.2 + 0.8, tags := extractTags "Good spread" }

/-! ## Claim C3 -/

/-- Claim C3: a run that ends in a fatal failure leaves the result list
exactly as it was, publishes a final progress value with status error
carrying the message, and returns no result. -/
theorem fatal_error_frame (env : Env) (rs : List AnalysisResult) (m : String)
    (h : (analyzeImage env rs).error = some m) :
    (analyzeImage env rs).results = rs ∧
    (analyzeImage env rs).trace.getLast? =
      some { progress := 0, status := Status.error, message := some m } ∧
    (analyzeImage env rs).result = none := by
  simp only [analyzeImage] at h ⊢
  split at h
  · simp_all [List.getLast?_concat]
  · split at h
    · simp_all [List.getLast?_concat]
    · split at h
      · simp_all [List.getLast?_concat]
      · simp_all

/-- Witness for the fatal-failure frame property: the stubbed 429 run adds
nothing to an empty result list and ends on the rate-limit error message. -/
theorem fatal_error_frame_witness :
    (analyzeImage env429 []).results = [] ∧
    (analyzeImage env429 []).trace.getLast? =
      some { progress := 0, status := Status.error,
             message := some "Rate limit exceeded. Please wait a moment and try again." } ∧
    (analyzeImage env429 []).result = none :=
  fatal_error_frame env429 []
    "Rate limit exceeded. Please wait a moment and try again." (by rfl)

/-! ## Claim C5 -/

/-- Claim C5: for a file that passes validation, compression is invoked
exactly when the file exceeds 2 MiB, and a failed compression does not abort
the run: the original file is the one handed to base64 conversion. -/
theorem compression_policy (env : Env) (rs : List AnalysisResult)
    (hv : (validateImageFile env.file).isValid = true) :
    ((analyzeImage env rs).compressionInvoked =
      decide (env.file.size > 2 * 1024 * 1024)) ∧
    (∀ e, env.compressResult = Except.error e →
      (analyzeImage env rs).encodedFile = some env.file) := by
  have hv2 : ¬ (validateImageFile env.file).isValid = false := by simp [hv]
  simp only [analyzeImage]
  rw [if_neg hv2]
  constructor
  · split
    · rfl
    · split <;> rfl
  · intro e he
    have hcf : (if env.file.size > 2 * 1024 * 1024 then
        match env.compressResult with
        | .ok f => f
        | .error _ => env.file
      else env.file) = env.file := by
      split
      · rw [he]
      · rfl
    rw [hcf]
    split
    · rfl
    · split <;> rfl

/-- Witness for the compression policy: a 3 MiB file whose compression step
fails still reaches encoding, with the original file. -/
theorem compression_policy_witness :
    ((analyzeImage envCompressFail []).compressionInvoked =
      decide (envCompressFail.file.size > 2 * 1024 * 1024)) ∧
    (analyzeImage envCompressFail []).encodedFile = some envCompressFail.file :=
  ⟨(compression_policy envCompressFail [] (by decide)).1,
   (compression_policy envCompressFail [] (by decide)).2
     "Failed to load image for compression" rfl⟩

/-! ## Claim C7 -/

/-- Counterexample to claim C7: a run whose base64 conversion fails
publishes the percents 0, 20, 40 and then the terminal error update with
percent 0, so the published percent sequence of that run is not
non-decreasing. -/
theorem percent_decreases_on_error :
    (analyzeImage envEncodeFail []).trace.map UploadProgress.progress = [0, 20, 40, 0] ∧
    ¬ List.Pairwise (fun a b => a ≤ b)
      ((analyzeImage envEncodeFail []).trace.map UploadProgress.progress) := by
  have h : (analyzeImage envEncodeFail []).trace.map UploadProgress.progress
      = [0, 20, 40, 0] := by rfl
  refine ⟨h, ?_⟩
  rw [h]
  decide

/-- Claim C7 amended: the published percents are non-decreasing up to (and
excluding) the terminal update, and a run that completes successfully is
non-decreasing throughout; but a run that ends in error publishes percent 0
in its terminal update, lower than any percent already published beyond the
first. -/
theorem percent_monotone_amended (env : Env) (rs : List AnalysisResult) :
    List.Pairwise (fun a b => a ≤ b)
      (((analyzeImage env rs).trace.dropLast).map UploadProgress.progress) ∧
    ((analyzeImage env rs).error = none →
      List.Pairwise (fun a b => a ≤ b)
        ((analyzeImage env rs).trace.map UploadProgress.progress)) ∧
    (∀ m, (analyzeImage env rs).error = some m →
      ((analyzeImage env rs).trace.getLast?).map UploadProgress.progress = some 0) := by
  simp only [analyzeImage]
  split
  · refine ⟨?_, ?_, ?_⟩ <;>
      simp [List.dropLast_concat, List.getLast?_concat, List.pairwise_cons]
  · split
    · refine ⟨?_, ?_, ?_⟩ <;>
        simp [List.dropLast_concat, List.getLast?_concat, List.pairwise_cons]
    · split
      · refine ⟨?_, ?_, ?_⟩ <;>
          simp [List.dropLast_concat, List.getLast?_concat, List.pairwise_cons]
      · refine ⟨?_, ?_, ?_⟩ <;>
          simp [List.dropLast_concat, List.getLast?_concat, List.pairwise_cons]

/-! ## Claim C8 -/

/-- The order of the progress phases: idle before uploading before analyzing
before the two terminal phases. -/
def phaseRank : Status → Nat
  | .idle => 0
  | .uploading => 1
  | .analyzing => 2
  | .complete => 3
  | .error => 3

/-- Counterexample to claim C8: the stubbed 429 run reaches the terminal
error phase yet schedules no reset to idle — the delayed reset exists only on
the success path. -/
theorem error_terminal_no_reset :
    ((analyzeImage env429 []).trace.getLast?).map UploadProgress.status =
      some Status.error ∧
    (analyzeImage env429 []).scheduledReset = none := by
  constructor <;> rfl

/-- Claim C8 amended: within a run the published phase only advances along
idle, uploading, analyzing, terminal, starting at uploading; a run that ends
in complete schedules the 2000 ms reset to idle, while a run that ends in
error schedules none. -/
theorem phase_order_amended (env : Env) (rs : List AnalysisResult) :
    List.Pairwise (fun a b => phaseRank a.status ≤ phaseRank b.status)
      ((analyzeImage env rs).trace) ∧
    (((analyzeImage env rs).trace.head?).map UploadProgress.status =
      some Status.uploading) ∧
    ((analyzeImage env rs).error = none →
      (analyzeImage env rs).scheduledReset =
        some (2000, { progress := 0, status := Status.idle, message := none }) ∧
      ((analyzeImage env rs).trace.getLast?).map UploadProgress.status =
        some Status.complete) ∧
    (∀ m, (analyzeImage env rs).error = some m →
      (analyzeImage env rs).scheduledReset = none ∧
      ((analyzeImage env rs).trace.getLast?).map UploadProgress.status =
        some Status.error) := by
  simp only [analyzeImage]
  split
  · refine ⟨?_, ?_, ?_, ?_⟩ <;>
      simp [List.getLast?_concat, List.pairwise_cons, phaseRank]
  · split
    · refine ⟨?_, ?_, ?_, ?_⟩ <;>
        simp [List.getLast?_concat, List.pairwise_cons, phaseRank]
    · split
      · refine ⟨?_, ?_, ?_, ?_⟩ <;>
          simp [List.getLast?_concat, List.pairwise_cons, phaseRank]
      · refine ⟨?_, ?_, ?_, ?_⟩ <;>
          simp [List.getLast?_concat, List.pairwise_cons, phaseRank]

/-! ## Claim C9 -/

/-- A stored result whose object URL would have to be revoked on discard. -/
def resLeak : AnalysisResult :=
  { id := "r1", timestamp := 1, imageUrl := "blob:leak", fileName := "f.png",
    analysis := "ok", confidence := 1, tags := [] }

/-- Claim C9 evaluated on the code: removing the result (by id) and clearing
the list both discard it, yet the revocation ledger stays empty — the
discarded imageUrl is never revoked by either path. -/
theorem discard_leaves_url_unrevoked :
    (removeResult { results := [resLeak], revokedUrls := [] } "r1").results = [] ∧
    (removeResult { results := [resLeak], revokedUrls := [] } "r1").revokedUrls = [] ∧
    (clearResults { results := [resLeak], revokedUrls := [] }).results = [] ∧
    (clearResults { results := [resLeak], revokedUrls := [] }).revokedUrls = [] ∧
    ¬ resLeak.imageUrl ∈
      (removeResult { results := [resLeak], revokedUrls := [] } "r1").revokedUrls := by
  refine ⟨rfl, rfl, rfl, rfl, ?_⟩
  simp [removeResult]

/-! ## Claim C10 -/

/-- Claim C10: every successful run's confidence equals rand * 0.2 + 0.8 for
the drawn rand, hence lies in [0.8, 1) whenever rand lies in [0, 1); and it
depends only on the drawn rand — two runs with the same rand but different
files, prompts and analysis texts produce equal confidence values. -/
theorem confidence_simulated (env1 env2 : Env) (rs1 rs2 : List AnalysisResult)
    (r1 r2 : AnalysisResult)
    (hrand : env1.rand = env2.rand)
    (h0 : 0 ≤ env1.rand) (h1 : env1.rand < 1)
    (he1 : (analyzeImage env1 rs1).result = some r1)
    (he2 : (analyzeImage env2 rs2).result = some r2) :
    r1.confidence = env1.rand * 0.2 + 0.8 ∧
    (0.8 : Rat) ≤ r1.confidence ∧ r1.confidence < 1 ∧
    r1.confidence = r2.confidence := by
  have key : ∀ (env : Env) (rs : List AnalysisResult) (r : AnalysisResult),
      (analyzeImage env rs).result = some r →
      r.confidence = env.rand * 0.2 + 0.8 := by
    intro env rs r he
    simp only [analyzeImage] at he
    split at he
    · simp at he
    · split at he
      · simp at he
      · split at he
        · simp at he
        · rw [Option.some.injEq] at he
          subst he
          rfl
  have k1 := key env1 rs1 r1 he1
  have k2 := key env2 rs2 r2 he2
  refine ⟨k1, ?_, ?_, by rw [k1, k2, hrand]⟩
  · rw [k1]
    have : (0 : Rat) ≤ env1.rand * 0.2 :=
      mul_nonneg h0 (by norm_num)
    linarith
  · rw [k1]
    have : env1.rand * 0.2 < 1 * 0.2 :=
      mul_lt_mul_of_pos_right h1 (by norm_num)
    linarith

/-- Witness for the confidence property: the successful stubbed run envOk
with rand 1/2 produces confidence 0.9, inside [0.8, 1). -/
theorem confidence_simulated_witness :
    resOk.confidence = envOk.rand * 0.2 + 0.8 ∧
    (0.8 : Rat) ≤ resOk.confidence ∧ resOk.confidence < 1 :=
  ⟨(confidence_simulated envOk envOk [] [] resOk resOk rfl
      (by norm_num [envOk]) (by norm_num [envOk]) rfl rfl).1,
   (confidence_simulated envOk envOk [] [] resOk resOk rfl
      (by norm_num [envOk]) (by norm_num [envOk]) rfl rfl).2.1,
   (confidence_simulated envOk envOk [] [] resOk resOk rfl
      (by norm_num [envOk]) (by norm_num [envOk]) rfl rfl).2.2.1⟩

end VB
